import Mathlib

/-!
Verification of the resumable parallel transfer engine of an OSS client SDK
(src/oss/upload.go and src/oss/multicopy.go), shallowly embedded in Lean.

The coordinators' goroutine/channel concurrency is sequentialised: the
select loop of each coordinator consumes an explicit list of `Arrival`s
(one per firing of the select), and remote calls, progress events and
file-system writes are recorded in a trace.  Pure helpers (todoParts,
getCompletedBytes, dump, isValid, getRoutines, getCpConfig, ...) are
translated function by function from the Go source.

Go's `base64(md5(...))` (crypto/md5 + encoding/base64 of the standard
library) is threaded through as an unspecified function parameter
`hash : String → String`: no settled property depends on the concrete
hash values, only on the fact that dump and isValid apply the same
function to the same marshalled bytes.
-/

/- ===== Data model (types used by upload.go and multicopy.go) ===== -/

/-- Modelled from the spec: part descriptor `{number: 1..10_000, offset, size}`
of the upload planner; the `FileChunk` struct itself is declared outside
src/ but its fields `Number`, `Offset`, `Size` are used throughout upload.go. -/
structure FileChunk where
  Number : Nat
  Offset : Int
  Size : Int
deriving DecidableEq

/-- Modelled from the spec: the server-acknowledged part token `{number, etag}`;
the `UploadPart` struct is declared outside src/ but its fields `PartNumber`
and `ETag` are used throughout upload.go and multicopy.go. -/
structure UploadPart where
  PartNumber : Nat
  ETag : String
deriving DecidableEq

/-- copyPart (multicopy.go lines 100-104): part number plus inclusive
start/end offsets in the source object. -/
structure copyPart where
  Number : Nat
  Start : Int
  End : Int
deriving DecidableEq

/-- cpStat (upload.go lines 223-227): the source-file fingerprint of an
upload checkpoint.  `time.Time` is modelled as an integer (nanosecond
timestamp), which the spec says is how it serialises. -/
structure cpStat where
  Size : Int
  LastModified : Int
  MD5 : String
deriving DecidableEq

/-- cpPart (upload.go lines 229-233): one part's chunk, token and flag. -/
structure cpPart where
  Chunk : FileChunk
  Part : UploadPart
  IsCompleted : Bool
deriving DecidableEq

/-- uploadCheckpoint (upload.go lines 213-221). -/
structure uploadCheckpoint where
  Magic : String
  MD5 : String
  FilePath : String
  FileStat : cpStat
  ObjectKey : String
  UploadID : String
  Parts : List cpPart
deriving DecidableEq

/-- objectStat: the remote-object fingerprint of a copy checkpoint
(fields `Size`, `LastModified`, `Etag` as used in multicopy.go lines
257-259 and 350-352; the struct is declared outside src/). -/
structure objectStat where
  Size : Int
  LastModified : String
  Etag : String
deriving DecidableEq

/-- copyCheckpoint (multicopy.go lines 218-230). -/
structure copyCheckpoint where
  Magic : String
  MD5 : String
  SrcBucketName : String
  SrcObjectKey : String
  DestBucketName : String
  DestObjectKey : String
  CopyID : String
  ObjStat : objectStat
  Parts : List copyPart
  CopyParts : List UploadPart
  PartStat : List Bool
deriving DecidableEq

/-- cpConfig: the checkpoint option record; declared outside src/ but its
fields `IsEnable` and `FilePath` are used by getCpConfig (upload.go 45-58). -/
structure cpConfig where
  IsEnable : Bool
  FilePath : String
deriving DecidableEq

/- ===== Constants ===== -/

/-- upload.go line 211. -/
def uploadCpMagic : String := "FE8BB4EA-B593-4FAC-AD7A-2459A36E2E62"

/-- multicopy.go line 216. -/
def copyCpMagic : String := "84F1F18C-FF1D-403B-A1D8-9DEB5F65910A"

/-- Modelled from the spec: the download checkpoint magic declared in
download.go (not under src/); the spec says the three per-mode magic
constants are distinct literals, so it is some string different from
`uploadCpMagic` and `copyCpMagic`. -/
def downloadCpMagic : String := "DOWNLOAD-CP-MAGIC-DISTINCT-FROM-UPLOAD-AND-COPY"

/-- Modelled from the spec: `MIN_PART_SIZE = 100 KiB` (const declared
outside src/). -/
def MinPartSize : Int := 100 * 1024

/-- Modelled from the spec: `MAX_PART_SIZE = 5 GiB` (const declared
outside src/). -/
def MaxPartSize : Int := 5 * 1024 * 1024 * 1024

/-- Modelled from the spec: the default checkpoint-file suffix `.cp`
(const declared outside src/). -/
def CheckpointFileSuffix : String := ".cp"

/-- Modelled from the spec: checkpoint files are written with
`0644`-equivalent permissions (const declared outside src/). -/
def FilePermMode : Nat := 0o644

/- ===== JSON marshalling (encoding/json on the checkpoint records) =====
Field order and names follow the Go struct declarations; the exact byte
format is irrelevant to every settled claim (dump and isValid only ever
compare hash-of-marshal results of equal records). -/

def jsonStr (s : String) : String := "\x22" ++ s ++ "\x22"

def jsonObj (fields : List String) : String :=
  "\x7b" ++ String.intercalate "," fields ++ "\x7d"

def jsonArr (elems : List String) : String :=
  "[" ++ String.intercalate "," elems ++ "]"

def jsonFd (name val : String) : String := jsonStr name ++ ":" ++ val

def jsonBool (b : Bool) : String := if b then "true" else "false"

def marshalFileChunk (c : FileChunk) : String :=
  jsonObj [jsonFd "Number" (toString c.Number), jsonFd "Offset" (toString c.Offset),
           jsonFd "Size" (toString c.Size)]

def marshalUploadPart (p : UploadPart) : String :=
  jsonObj [jsonFd "PartNumber" (toString p.PartNumber), jsonFd "ETag" (jsonStr p.ETag)]

def marshalCopyPart (p : copyPart) : String :=
  jsonObj [jsonFd "Number" (toString p.Number), jsonFd "Start" (toString p.Start),
           jsonFd "End" (toString p.End)]

def marshalCpStat (s : cpStat) : String :=
  jsonObj [jsonFd "Size" (toString s.Size), jsonFd "LastModified" (toString s.LastModified),
           jsonFd "MD5" (jsonStr s.MD5)]

def marshalCpPart (p : cpPart) : String :=
  jsonObj [jsonFd "Chunk" (marshalFileChunk p.Chunk), jsonFd "Part" (marshalUploadPart p.Part),
           jsonFd "IsCompleted" (jsonBool p.IsCompleted)]

def marshalUploadCheckpoint (cp : uploadCheckpoint) : String :=
  jsonObj [jsonFd "Magic" (jsonStr cp.Magic), jsonFd "MD5" (jsonStr cp.MD5),
           jsonFd "FilePath" (jsonStr cp.FilePath), jsonFd "FileStat" (marshalCpStat cp.FileStat),
           jsonFd "ObjectKey" (jsonStr cp.ObjectKey), jsonFd "UploadID" (jsonStr cp.UploadID),
           jsonFd "Parts" (jsonArr (cp.Parts.map marshalCpPart))]

def marshalObjectStat (s : objectStat) : String :=
  jsonObj [jsonFd "Size" (toString s.Size), jsonFd "LastModified" (jsonStr s.LastModified),
           jsonFd "Etag" (jsonStr s.Etag)]

def marshalCopyCheckpoint (cp : copyCheckpoint) : String :=
  jsonObj [jsonFd "Magic" (jsonStr cp.Magic), jsonFd "MD5" (jsonStr cp.MD5),
           jsonFd "SrcBucketName" (jsonStr cp.SrcBucketName),
           jsonFd "SrcObjectKey" (jsonStr cp.SrcObjectKey),
           jsonFd "DestBucketName" (jsonStr cp.DestBucketName),
           jsonFd "DestObjectKey" (jsonStr cp.DestObjectKey),
           jsonFd "CopyID" (jsonStr cp.CopyID),
           jsonFd "ObjStat" (marshalObjectStat cp.ObjStat),
           jsonFd "Parts" (jsonArr (cp.Parts.map marshalCopyPart)),
           jsonFd "CopyParts" (jsonArr (cp.CopyParts.map marshalUploadPart)),
           jsonFd "PartStat" (jsonArr (cp.PartStat.map jsonBool))]

/- ===== Checkpoint store operations ===== -/

/-- calcFileMD5 (upload.go lines 347-350): the local-file MD5 computation
is a stub that always returns the empty string. -/
def calcFileMD5 (_filePath : String) : String := ""

/-- uploadCheckpoint.isValid (upload.go lines 236-273), with the file-stat
I/O factored out: `stSize`/`stModTime` are the result of the successful
`os.Stat` of `filePath` (the error paths of Open/Stat make isValid return
an error, which the caller treats as invalid).  `hash` stands for
`base64(md5(·))`. -/
def uploadCheckpoint.isValidPure (hash : String → String) (cp : uploadCheckpoint)
    (filePath : String) (stSize stModTime : Int) : Bool :=
  let cpb := { cp with MD5 := "" }
  let js := marshalUploadCheckpoint cpb
  let b64 := hash js
  if cp.Magic ≠ uploadCpMagic ∨ b64 ≠ cp.MD5 then false
  else
    let md := calcFileMD5 filePath
    if cp.FileStat.Size ≠ stSize ∨ cp.FileStat.LastModified ≠ stModTime ∨
       cp.FileStat.MD5 ≠ md then false
    else true

/-- copyCheckpoint.isValid (multicopy.go lines 233-264), with the remote
HEAD factored out: `metaSize`/`metaLastModified`/`metaEtag` are the parsed
response of the successful `GetObjectDetailedMeta` call.  Note line 241
compares `cp.Magic` against `downloadCpMagic`, not `copyCpMagic`. -/
def copyCheckpoint.isValidPure (hash : String → String) (cp : copyCheckpoint)
    (metaSize : Int) (metaLastModified metaEtag : String) : Bool :=
  let cpb := { cp with MD5 := "" }
  let js := marshalCopyCheckpoint cpb
  let b64 := hash js
  if cp.Magic ≠ downloadCpMagic ∨ b64 ≠ cp.MD5 then false
  else
    if cp.ObjStat.Size ≠ metaSize ∨ cp.ObjStat.LastModified ≠ metaLastModified ∨
       cp.ObjStat.Etag ≠ metaEtag then false
    else true

/-- The bytes uploadCheckpoint.dump (upload.go lines 287-308) writes:
blank the MD5 field, marshal, hash, fill the MD5 in, marshal again. -/
def uploadCheckpoint.dumpBytes (hash : String → String) (cp : uploadCheckpoint) : String :=
  let bcp := { cp with MD5 := "" }
  let js := marshalUploadCheckpoint bcp
  let b64 := hash js
  let bcp2 := { bcp with MD5 := b64 }
  marshalUploadCheckpoint bcp2

/-- The bytes copyCheckpoint.dump (multicopy.go lines 284-305) writes. -/
def copyCheckpoint.dumpBytes (hash : String → String) (cp : copyCheckpoint) : String :=
  let bcp := { cp with MD5 := "" }
  let js := marshalCopyCheckpoint bcp
  let b64 := hash js
  let bcp2 := { bcp with MD5 := b64 }
  marshalCopyCheckpoint bcp2

/-- A file-system operation performed by the checkpoint store. -/
inductive FsOp where
  | writeFile (path contents : String) (perm : Nat)
  | writeTempFile (path contents : String) (perm : Nat)
  | fsyncFile (path : String)
  | renameFile (oldPath newPath : String)
  | removeFile (path : String)
deriving DecidableEq

/-- The file-system operations of uploadCheckpoint.dump (upload.go line
307): a single whole-record `ioutil.WriteFile` of the marshalled record. -/
def uploadCheckpoint.dumpOps (hash : String → String) (cp : uploadCheckpoint)
    (filePath : String) : List FsOp :=
  [FsOp.writeFile filePath (cp.dumpBytes hash) FilePermMode]

/-- The file-system operations of copyCheckpoint.dump (multicopy.go line 304). -/
def copyCheckpoint.dumpOps (hash : String → String) (cp : copyCheckpoint)
    (filePath : String) : List FsOp :=
  [FsOp.writeFile filePath (cp.dumpBytes hash) FilePermMode]

/- ===== Checkpoint bookkeeping helpers ===== -/

/-- uploadCheckpoint.updatePart (upload.go lines 311-314): set the token
and the completed flag of slot PartNumber-1 (Go panics when the index is
out of range; `List.set` is a no-op there, and every coordinator use is
guarded by the index check of the aggregation step). -/
def uploadCheckpoint.updatePart (cp : uploadCheckpoint) (part : UploadPart) : uploadCheckpoint :=
  let old := (cp.Parts.get? (part.PartNumber - 1)).getD ⟨⟨0, 0, 0⟩, ⟨0, ""⟩, false⟩
  { cp with Parts := cp.Parts.set (part.PartNumber - 1) ⟨old.Chunk, part, true⟩ }

/-- uploadCheckpoint.todoParts (upload.go lines 317-325): the chunks of
the not-yet-completed parts, in checkpoint order. -/
def uploadCheckpoint.todoParts (cp : uploadCheckpoint) : List FileChunk :=
  cp.Parts.foldl (fun fcs part => if !part.IsCompleted then fcs ++ [part.Chunk] else fcs) []

/-- uploadCheckpoint.allParts (upload.go lines 328-334). -/
def uploadCheckpoint.allParts (cp : uploadCheckpoint) : List UploadPart :=
  cp.Parts.foldl (fun ps part => ps ++ [part.Part]) []

/-- uploadCheckpoint.getCompletedBytes (upload.go lines 337-345). -/
def uploadCheckpoint.getCompletedBytes (cp : uploadCheckpoint) : Int :=
  cp.Parts.foldl (fun acc part => if part.IsCompleted then acc + part.Chunk.Size else acc) 0

/-- copyCheckpoint.update (multicopy.go lines 278-281). -/
def copyCheckpoint.update (cp : copyCheckpoint) (part : UploadPart) : copyCheckpoint :=
  { cp with CopyParts := cp.CopyParts.set (part.PartNumber - 1) part,
            PartStat := cp.PartStat.set (part.PartNumber - 1) true }

/-- The loop body of copyCheckpoint.todoParts (multicopy.go lines 308-316):
walk PartStat and Parts in lockstep, keeping the parts whose status is
false.  (Go indexes `cp.Parts[i]` from the range over PartStat and would
panic if PartStat were longer; the two arrays are always built with equal
length.) -/
def copyTodoAux : List Bool → List copyPart → List copyPart
  | [], _ => []
  | _ :: _, [] => []
  | ps :: st, p :: rest =>
    if !ps then p :: copyTodoAux st rest else copyTodoAux st rest

/-- copyCheckpoint.todoParts (multicopy.go lines 308-316). -/
def copyCheckpoint.todoParts (cp : copyCheckpoint) : List copyPart :=
  copyTodoAux cp.PartStat cp.Parts

/-- The loop body of copyCheckpoint.getCompletedBytes (multicopy.go lines
319-327): sum End-Start+1 over the parts whose status is true. -/
def copyCompletedAux : List copyPart → List Bool → Int
  | [], _ => 0
  | _ :: _, [] => 0
  | p :: rest, ps :: st =>
    (if ps then p.End - p.Start + 1 else 0) + copyCompletedAux rest st

/-- copyCheckpoint.getCompletedBytes (multicopy.go lines 319-327). -/
def copyCheckpoint.getCompletedBytes (cp : copyCheckpoint) : Int :=
  copyCompletedAux cp.Parts cp.PartStat

/-- The slice access of the copy coordinator's aggregation step
(multicopy.go line 442): `parts[part.PartNumber-1]` where `parts` is the
todo list; `none` is Go's index-out-of-range panic. -/
def copyAggEntry (todo : List copyPart) (partNumber : Nat) : Option copyPart :=
  todo.get? (partNumber - 1)

/-- The array access of the upload coordinator's aggregation step
(upload.go line 464): `ucp.Parts[part.PartNumber-1]` on the full Parts
array. -/
def uploadCpAggEntry (cp : uploadCheckpoint) (partNumber : Nat) : Option cpPart :=
  cp.Parts.get? (partNumber - 1)

/- ===== Option helpers and entry-point guards ===== -/

/-- getRoutines (upload.go lines 61-75); `none` models an absent (or
type-mismatched) Routines option. -/
def getRoutines (rtnOpt : Option Int) : Int :=
  match rtnOpt with
  | none => 1
  | some rs => if rs < 1 then 1 else if rs > 100 then 100 else rs

/-- getCpConfig (upload.go lines 45-58); `none` models an absent
checkpointConfig option. -/
def getCpConfig (cpcOpt : Option cpConfig) (filePath : String) : cpConfig :=
  match cpcOpt with
  | none => ⟨false, ""⟩
  | some cpc =>
    if cpc.IsEnable ∧ cpc.FilePath = "" then
      { cpc with FilePath := filePath ++ CheckpointFileSuffix }
    else cpc

/-- Go's path/filepath.Base on slash-separated paths, as called by
CopyFile (multicopy.go line 31): empty path gives ".", trailing slashes
are dropped, then everything through the last slash is dropped; an
all-slash path gives "/". -/
def filepathBase (path : String) : String :=
  if path = "" then "."
  else
    let trimmed := (path.toList.reverse.dropWhile (fun c => c = '/')).reverse
    if trimmed.isEmpty then "/"
    else String.mk ((trimmed.reverse.takeWhile (fun c => ¬ (c = '/'))).reverse)

/-- getTotalBytes (upload.go lines 132-138). -/
def getTotalBytes (chunks : List FileChunk) : Int :=
  chunks.foldl (fun tb chunk => tb + chunk.Size) 0

/-- getSrcObjectBytes (multicopy.go lines 132-138). -/
def getSrcObjectBytes (parts : List copyPart) : Int :=
  parts.foldl (fun ob part => ob + (part.End - part.Start + 1)) 0

/- ===== Coordinator state machines, sequentialised ===== -/

/-- Progress event kinds (progress.go, outside src/, referenced throughout
upload.go and multicopy.go). -/
inductive progressEventType where
  | transferStartedEvent
  | transferDataEvent
  | transferCompletedEvent
  | transferFailedEvent
deriving DecidableEq

/-- One observable step of a coordinator run: a progress event published to
the listener, a remote call, or a checkpoint-file operation. -/
inductive TraceEv where
  | progress (t : progressEventType) (consumedBytes totalBytes : Int)
  | remoteInitiate (objectKey : String)
  | remoteComplete (uploadId : String)
  | remoteAbort (uploadId : String)
  | fsWrite (path contents : String)
  | fsRemove (path : String)
deriving DecidableEq

/-- How a coordinator run ends. -/
inductive RunResult where
  | success
  | failure
  | invalidArgument
  | panicked
  | stuck
deriving DecidableEq

/-- One firing of a coordinator's select loop: either a successful part
result arrives on the results channel, or the first worker error arrives
on the failed channel.  `dumpErr` says whether the checkpoint dump the
checkpointed coordinators issue for this result fails (the Go code
discards that error, so the flag models the environment, not a branch of
the code). -/
inductive Arrival where
  | ok (part : UploadPart) (dumpErr : Bool)
  | err
deriving DecidableEq

/-- The tail of uploadFile after the loop (upload.go lines 198-207): a
second TransferStartedEvent, then Complete, and on Complete failure an
Abort. -/
def uploadFileTail (uploadId : String) (totalBytes : Int) (completeOk : Bool)
    (completedBytes : Int) : List TraceEv × RunResult :=
  (TraceEv.progress progressEventType.transferStartedEvent completedBytes totalBytes ::
   TraceEv.remoteComplete uploadId ::
   (if completeOk then [] else [TraceEv.remoteAbort uploadId]),
   if completeOk then RunResult.success else RunResult.failure)

/-- The aggregation loop of uploadFile, the non-checkpointed upload
coordinator (upload.go lines 175-207), plus its tail: on each result,
collect the part, add `chunks[PartNumber-1].Size`, publish Data; on the
first error, publish Failed, call Abort and return; when all parts are
done, publish a (second) Started event, call Complete, and on Complete
failure call Abort.  `none` from the chunk lookup is Go's
index-out-of-range panic. -/
def uploadFileLoop (chunks : List FileChunk) (totalBytes : Int) (uploadId : String)
    (completeOk : Bool) :
    List Arrival → Int → Nat → List TraceEv × RunResult
  | [], completedBytes, completed =>
    if completed < chunks.length then ([], RunResult.stuck)
    else uploadFileTail uploadId totalBytes completeOk completedBytes
  | Arrival.err :: _, completedBytes, completed =>
    if completed < chunks.length then
      ([TraceEv.progress progressEventType.transferFailedEvent completedBytes totalBytes,
        TraceEv.remoteAbort uploadId], RunResult.failure)
    else uploadFileTail uploadId totalBytes completeOk completedBytes
  | Arrival.ok part _ :: rest, completedBytes, completed =>
    if completed < chunks.length then
      match chunks.get? (part.PartNumber - 1) with
      | none => ([], RunResult.panicked)
      | some chunk =>
        let cb := completedBytes + chunk.Size
        let tr := uploadFileLoop chunks totalBytes uploadId completeOk rest cb (completed + 1)
        (TraceEv.progress progressEventType.transferDataEvent cb totalBytes :: tr.1, tr.2)
    else uploadFileTail uploadId totalBytes completeOk completedBytes

/-- uploadFile (upload.go lines 141-208): Initiate, first Started event,
then the aggregation loop. -/
def uploadFileRun (objectKey uploadId : String) (chunks : List FileChunk)
    (completeOk : Bool) (arrivals : List Arrival) : List TraceEv × RunResult :=
  let totalBytes := getTotalBytes chunks
  let tr := uploadFileLoop chunks totalBytes uploadId completeOk arrivals 0 0
  (TraceEv.remoteInitiate objectKey ::
   TraceEv.progress progressEventType.transferStartedEvent 0 totalBytes :: tr.1, tr.2)

/-- The tail of copyFile after the loop (multicopy.go lines 202-211):
TransferCompletedEvent, then Complete, and on Complete failure an Abort. -/
def copyFileTail (uploadId : String) (totalBytes : Int) (completeOk : Bool)
    (completedBytes : Int) : List TraceEv × RunResult :=
  (TraceEv.progress progressEventType.transferCompletedEvent completedBytes totalBytes ::
   TraceEv.remoteComplete uploadId ::
   (if completeOk then [] else [TraceEv.remoteAbort uploadId]),
   if completeOk then RunResult.success else RunResult.failure)

/-- The aggregation loop of copyFile, the non-checkpointed copy
coordinator (multicopy.go lines 179-211), plus its tail: on each result,
add `parts[PartNumber-1]`'s size, publish Data; on the first error, call
Abort and then publish Failed (in that order, lines 189-194); when all
parts are done, publish Completed and call Complete. -/
def copyFileLoop (parts : List copyPart) (totalBytes : Int) (uploadId : String)
    (completeOk : Bool) :
    List Arrival → Int → Nat → List TraceEv × RunResult
  | [], completedBytes, completed =>
    if completed < parts.length then ([], RunResult.stuck)
    else copyFileTail uploadId totalBytes completeOk completedBytes
  | Arrival.err :: _, completedBytes, completed =>
    if completed < parts.length then
      ([TraceEv.remoteAbort uploadId,
        TraceEv.progress progressEventType.transferFailedEvent completedBytes totalBytes],
       RunResult.failure)
    else copyFileTail uploadId totalBytes completeOk completedBytes
  | Arrival.ok part _ :: rest, completedBytes, completed =>
    if completed < parts.length then
      match parts.get? (part.PartNumber - 1) with
      | none => ([], RunResult.panicked)
      | some p =>
        let cb := completedBytes + (p.End - p.Start + 1)
        let tr := copyFileLoop parts totalBytes uploadId completeOk rest cb (completed + 1)
        (TraceEv.progress progressEventType.transferDataEvent cb totalBytes :: tr.1, tr.2)
    else copyFileTail uploadId totalBytes completeOk completedBytes

/-- copyFile (multicopy.go lines 141-212). -/
def copyFileRun (destObjectKey uploadId : String) (parts : List copyPart)
    (completeOk : Bool) (arrivals : List Arrival) : List TraceEv × RunResult :=
  let totalBytes := getSrcObjectBytes parts
  let tr := copyFileLoop parts totalBytes uploadId completeOk arrivals 0 0
  (TraceEv.remoteInitiate destObjectKey ::
   TraceEv.progress progressEventType.transferStartedEvent 0 totalBytes :: tr.1, tr.2)

/-- The tail of uploadFileWithCp after the loop (upload.go lines 479-484):
TransferCompletedEvent, then Complete, then removal of the checkpoint file
(the removal happens only when Complete succeeds, upload.go lines 404-409). -/
def uploadCpTail (cpFilePath : String) (completeOk : Bool) (cp : uploadCheckpoint)
    (completedBytes : Int) : List TraceEv × RunResult :=
  (TraceEv.progress progressEventType.transferCompletedEvent completedBytes cp.FileStat.Size ::
   TraceEv.remoteComplete cp.UploadID ::
   (if completeOk then [TraceEv.fsRemove cpFilePath] else []),
   if completeOk then RunResult.success else RunResult.failure)

/-- The aggregation loop of uploadFileWithCp (upload.go lines 457-484),
plus its tail: on each result, updatePart, dump the checkpoint (the dump's
error is discarded on line 463, so the arrival's `dumpErr` flag is never
inspected), add `ucp.Parts[PartNumber-1].Chunk.Size`, publish Data; on
the first error, publish Failed and return (no Abort); when all parts are
done, publish Completed, then Complete, then remove the checkpoint file. -/
def uploadCpLoop (hash : String → String) (cpFilePath : String) (n : Nat)
    (completeOk : Bool) :
    List Arrival → uploadCheckpoint → Int → Nat → List TraceEv × RunResult
  | [], cp, completedBytes, completed =>
    if completed < n then ([], RunResult.stuck)
    else uploadCpTail cpFilePath completeOk cp completedBytes
  | Arrival.err :: _, cp, completedBytes, completed =>
    if completed < n then
      ([TraceEv.progress progressEventType.transferFailedEvent completedBytes cp.FileStat.Size],
       RunResult.failure)
    else uploadCpTail cpFilePath completeOk cp completedBytes
  | Arrival.ok part _dumpErr :: rest, cp, completedBytes, completed =>
    if completed < n then
      let cp2 := cp.updatePart part
      match cp2.Parts.get? (part.PartNumber - 1) with
      | none => ([], RunResult.panicked)
      | some entry =>
        let cb := completedBytes + entry.Chunk.Size
        let tr := uploadCpLoop hash cpFilePath n completeOk rest cp2 cb (completed + 1)
        (TraceEv.fsWrite cpFilePath (cp2.dumpBytes hash) ::
         TraceEv.progress progressEventType.transferDataEvent cb cp.FileStat.Size :: tr.1, tr.2)
    else uploadCpTail cpFilePath completeOk cp completedBytes

/-- The zero value `uploadCheckpoint{}` that uploadFileWithCp starts from
when the checkpoint file cannot be read (upload.go line 417). -/
def uploadCheckpoint.empty : uploadCheckpoint := ⟨"", "", "", ⟨0, 0, ""⟩, "", "", []⟩

/-- Lines 416-430 of upload.go: load the checkpoint file (`loaded = none`
models a read/parse failure), validate it, and when invalid run `prepare`
(which stats the file, splits it into chunks and calls
InitiateMultipartUpload); `freshCp` is the checkpoint `prepare` builds.
Returns the checkpoint the run proceeds with and whether prepare (hence a
new Initiate) ran. -/
def uploadCpSetup (hash : String → String) (loaded : Option uploadCheckpoint)
    (filePath : String) (stSize stModTime : Int) (freshCp : uploadCheckpoint) :
    uploadCheckpoint × Bool :=
  let ucp := loaded.getD uploadCheckpoint.empty
  if ucp.isValidPure hash filePath stSize stModTime then (ucp, false) else (freshCp, true)

/-- uploadFileWithCp (upload.go lines 413-485): setup, the Started event
with the checkpoint's completed byte count, the aggregation loop on the
todo chunks, reusing the checkpoint's UploadID for the whole run. -/
def uploadFileWithCpRun (hash : String → String) (loaded : Option uploadCheckpoint)
    (filePath : String) (stSize stModTime : Int) (freshCp : uploadCheckpoint)
    (cpFilePath : String) (completeOk : Bool) (arrivals : List Arrival) :
    List TraceEv × RunResult :=
  let s := uploadCpSetup hash loaded filePath stSize stModTime freshCp
  let ucp := s.1
  let chunks := ucp.todoParts
  let completedBytes := ucp.getCompletedBytes
  let tr := uploadCpLoop hash cpFilePath chunks.length completeOk arrivals ucp completedBytes 0
  ((if s.2 then [TraceEv.remoteInitiate ucp.ObjectKey] else []) ++
   TraceEv.progress progressEventType.transferStartedEvent completedBytes ucp.FileStat.Size ::
   tr.1, tr.2)

/-- The tail of copyFileWithCp after the loop (multicopy.go lines 457-460
and 375-384). -/
def copyCpTail (cpFilePath : String) (completeOk : Bool) (cp : copyCheckpoint)
    (completedBytes : Int) : List TraceEv × RunResult :=
  (TraceEv.progress progressEventType.transferCompletedEvent completedBytes cp.ObjStat.Size ::
   TraceEv.remoteComplete cp.CopyID ::
   (if completeOk then [TraceEv.fsRemove cpFilePath] else []),
   if completeOk then RunResult.success else RunResult.failure)

/-- The aggregation loop of copyFileWithCp (multicopy.go lines 435-460),
plus its tail: on each result, update, dump (error discarded on line 441),
then add the size of `parts[PartNumber-1]` where `parts` is the TODO list
computed before the loop (line 410) — the access Go panics on when
PartNumber-1 is not an index of that shorter list; on the first error,
publish Failed and return (no Abort); when all todo parts are done,
publish Completed, Complete, remove the checkpoint file. -/
def copyCpLoop (hash : String → String) (cpFilePath : String) (todo : List copyPart)
    (completeOk : Bool) :
    List Arrival → copyCheckpoint → Int → Nat → List TraceEv × RunResult
  | [], cp, completedBytes, completed =>
    if completed < todo.length then ([], RunResult.stuck)
    else copyCpTail cpFilePath completeOk cp completedBytes
  | Arrival.err :: _, cp, completedBytes, completed =>
    if completed < todo.length then
      ([TraceEv.progress progressEventType.transferFailedEvent completedBytes cp.ObjStat.Size],
       RunResult.failure)
    else copyCpTail cpFilePath completeOk cp completedBytes
  | Arrival.ok part _dumpErr :: rest, cp, completedBytes, completed =>
    if completed < todo.length then
      let cp2 := cp.update part
      match copyAggEntry todo part.PartNumber with
      | none => ([TraceEv.fsWrite cpFilePath (cp2.dumpBytes hash)], RunResult.panicked)
      | some tp =>
        let cb := completedBytes + (tp.End - tp.Start + 1)
        let tr := copyCpLoop hash cpFilePath todo completeOk rest cp2 cb (completed + 1)
        (TraceEv.fsWrite cpFilePath (cp2.dumpBytes hash) ::
         TraceEv.progress progressEventType.transferDataEvent cb cp.ObjStat.Size :: tr.1, tr.2)
    else copyCpTail cpFilePath completeOk cp completedBytes

/-- The zero value `copyCheckpoint{}` (multicopy.go line 394). -/
def copyCheckpoint.empty : copyCheckpoint := ⟨"", "", "", "", "", "", "", ⟨0, "", ""⟩, [], [], []⟩

/-- Lines 393-407 of multicopy.go: load the checkpoint file, validate it
against the source object's HEAD data, and when invalid run `prepare`
(which re-HEADs the source, rebuilds the parts and calls
InitiateMultipartUpload on the destination). -/
def copyCpSetup (hash : String → String) (loaded : Option copyCheckpoint)
    (metaSize : Int) (metaLastModified metaEtag : String) (freshCp : copyCheckpoint) :
    copyCheckpoint × Bool :=
  let ccp := loaded.getD copyCheckpoint.empty
  if ccp.isValidPure hash metaSize metaLastModified metaEtag then (ccp, false) else (freshCp, true)

/-- copyFileWithCp (multicopy.go lines 387-461). -/
def copyFileWithCpRun (hash : String → String) (loaded : Option copyCheckpoint)
    (metaSize : Int) (metaLastModified metaEtag : String) (freshCp : copyCheckpoint)
    (cpFilePath : String) (completeOk : Bool) (arrivals : List Arrival) :
    List TraceEv × RunResult :=
  let s := copyCpSetup hash loaded metaSize metaLastModified metaEtag freshCp
  let ccp := s.1
  let todo := ccp.todoParts
  let completedBytes := ccp.getCompletedBytes
  let tr := copyCpLoop hash cpFilePath todo completeOk arrivals ccp completedBytes 0
  ((if s.2 then [TraceEv.remoteInitiate ccp.DestObjectKey] else []) ++
   TraceEv.progress progressEventType.transferStartedEvent completedBytes ccp.ObjStat.Size ::
   tr.1, tr.2)

/-- The part-size guard at the head of Bucket.UploadFile (upload.go lines
24-26) and Bucket.CopyFile (multicopy.go lines 27-29): outside
[MinPartSize, MaxPartSize] the entry point returns the invalid-range
error before any option handling or remote call; `rest` is the trace and
result of the rest of the entry point. -/
def partSizeGuard (partSize : Int) (rest : List TraceEv × RunResult) :
    List TraceEv × RunResult :=
  if partSize < MinPartSize ∨ partSize > MaxPartSize then ([], RunResult.invalidArgument)
  else rest

/- ===== Shared concrete material for evaluations ===== -/

/-- A concrete stand-in for `base64(md5(·))` used in closed evaluations
(any function works: the settled properties never depend on hash values). -/
def demoHash (s : String) : String := toString s.length

/- ===== C10 ===== -/

/-- C10: for every requested worker count, getRoutines yields
clamp(n, 1, 100): an absent Routines option gives 1, any n ≤ 0 gives 1,
any n > 100 gives 100, and any n in [1, 100] is used unchanged. -/
theorem C10_routines_clamped :
    (∀ n : Int, getRoutines (some n) = max 1 (min n 100)) ∧ getRoutines none = 1 := by
  refine ⟨fun n => ?_, rfl⟩
  simp only [getRoutines]
  split_ifs <;> omega

/- ===== C8 ===== -/

/-- C8: for every part size outside [MinPartSize, MaxPartSize], the guard
shared by Bucket.UploadFile (upload.go lines 24-26) and Bucket.CopyFile
(multicopy.go lines 27-29) returns the invalid-argument error with an
empty trace: no remote call (Initiate, UploadPart or otherwise) is issued,
whatever the rest of the entry point would have done. -/
theorem C8_part_size_guard (partSize : Int) (rest : List TraceEv × RunResult)
    (h : partSize < MinPartSize ∨ partSize > MaxPartSize) :
    partSizeGuard partSize rest = ([], RunResult.invalidArgument) := by
  simp only [partSizeGuard]
  exact if_pos h

theorem C8_part_size_guard_witness :
    partSizeGuard 1024 ([TraceEv.remoteInitiate "k"], RunResult.success)
      = ([], RunResult.invalidArgument) ∧
    partSizeGuard (100 * 1024 * 1024 * 1024) ([TraceEv.remoteInitiate "k"], RunResult.success)
      = ([], RunResult.invalidArgument) :=
  ⟨C8_part_size_guard 1024 _ (Or.inl (by decide)),
   C8_part_size_guard (100 * 1024 * 1024 * 1024) _ (Or.inr (by decide))⟩

/- ===== C9 ===== -/

/-- C9 counterexample: with checkpointing enabled and no path supplied,
CopyFile passes `filepath.Base(destObjectKey)` to getCpConfig
(multicopy.go line 31), so for destination key "dir/obj" the default
checkpoint path is "obj.cp", not "dir/obj.cp" as the claim states. -/
theorem C9_counterexample :
    getCpConfig (some ⟨true, ""⟩) (filepathBase "dir/obj") = ⟨true, "obj.cp"⟩ ∧
    (getCpConfig (some ⟨true, ""⟩) (filepathBase "dir/obj")).FilePath
      ≠ "dir/obj" ++ CheckpointFileSuffix := by
  refine ⟨by decide, by decide⟩

/-- C9 amended: when checkpointing is enabled and no checkpoint path is
supplied, the default is the local file path with ".cp" appended for
Upload, and the base name (filepath.Base) of the destination object key
with ".cp" appended for Copy. -/
theorem C9_default_checkpoint_paths (filePath destObjectKey : String) :
    getCpConfig (some ⟨true, ""⟩) filePath = ⟨true, filePath ++ CheckpointFileSuffix⟩ ∧
    getCpConfig (some ⟨true, ""⟩) (filepathBase destObjectKey)
      = ⟨true, filepathBase destObjectKey ++ CheckpointFileSuffix⟩ := by
  constructor <;> simp [getCpConfig]

/- ===== C3 ===== -/

/-- A concrete checkpoint record used to evaluate dump's behaviour. -/
def c3cp : uploadCheckpoint :=
  ⟨uploadCpMagic, "", "f.bin", ⟨15, 7, ""⟩, "key", "uid",
   [⟨⟨1, 0, 10⟩, ⟨0, ""⟩, false⟩, ⟨⟨2, 10, 5⟩, ⟨0, ""⟩, false⟩]⟩

/-- C3 counterexample: for this concrete record, dump issues exactly one
file-system operation — a direct whole-file write of the marshalled record
to the target path — and no temp-file write, no fsync and no rename, so
the claimed temp+fsync+rename atomic protocol does not happen. -/
theorem C3_counterexample :
    (uploadCheckpoint.dumpOps demoHash c3cp "f.bin.cp").length = 1 ∧
    ((uploadCheckpoint.dumpOps demoHash c3cp "f.bin.cp").all fun op =>
      match op with
      | FsOp.writeFile _ _ _ => true
      | _ => false) = true := by
  refine ⟨rfl, rfl⟩

/-- C3 amended: for every checkpoint record and path, dump marshals the
record with the MD5 field blanked, computes its MD5 (base64), fills it in,
marshals again, and writes the whole record directly to the target path
with FilePermMode permissions in a single WriteFile call; there is no temp
file, no fsync and no rename (the write is whole-record but not atomic).
This holds for the upload and the copy checkpoint store alike. -/
theorem C3_dump_is_single_direct_write (hash : String → String)
    (ucp : uploadCheckpoint) (ccp : copyCheckpoint) (path : String) :
    ucp.dumpOps hash path
      = [FsOp.writeFile path
          (marshalUploadCheckpoint
            { ucp with MD5 := hash (marshalUploadCheckpoint { ucp with MD5 := "" }) })
          FilePermMode] ∧
    ccp.dumpOps hash path
      = [FsOp.writeFile path
          (marshalCopyCheckpoint
            { ccp with MD5 := hash (marshalCopyCheckpoint { ccp with MD5 := "" }) })
          FilePermMode] ∧
    (∀ op ∈ ucp.dumpOps hash path, ∃ p c m, op = FsOp.writeFile p c m) ∧
    (∀ op ∈ ccp.dumpOps hash path, ∃ p c m, op = FsOp.writeFile p c m) := by
  refine ⟨rfl, rfl, ?_, ?_⟩ <;>
    · intro op hop
      simp only [uploadCheckpoint.dumpOps, copyCheckpoint.dumpOps, List.mem_singleton] at hop
      exact ⟨_, _, _, hop⟩

/- ===== C1 ===== -/

/-- The copy checkpoint that copyCheckpoint.prepare (multicopy.go lines
330-373) builds for a 200-byte source object split into two parts, before
the first dump: Magic is copyCpMagic, MD5 still blank, fingerprint taken
from the source HEAD (size 200, LastModified "lm", Etag "etag"). -/
def c1Prepared : copyCheckpoint :=
  ⟨copyCpMagic, "", "srcb", "srck", "dstb", "dstk", "copyid",
   ⟨200, "lm", "etag"⟩,
   [⟨1, 0, 99⟩, ⟨2, 100, 199⟩], [⟨0, ""⟩, ⟨0, ""⟩], [false, false]⟩

/-- The record as it stands on disk after copyCheckpoint.dump and an
unchanged reload: the MD5 field holds the hash of the record with MD5
blanked, exactly as dump computes it. -/
def c1OnDisk : copyCheckpoint :=
  { c1Prepared with MD5 := demoHash (marshalCopyCheckpoint c1Prepared) }

/-- The upload counterpart: the checkpoint prepare (upload.go lines
353-398) builds for a 15-byte file, after dump and unchanged reload. -/
def c1uPrepared : uploadCheckpoint :=
  ⟨uploadCpMagic, "", "f.bin", ⟨15, 7, ""⟩, "key", "uid",
   [⟨⟨1, 0, 10⟩, ⟨0, ""⟩, false⟩, ⟨⟨2, 10, 5⟩, ⟨0, ""⟩, false⟩]⟩

def c1uOnDisk : uploadCheckpoint :=
  { c1uPrepared with MD5 := demoHash (marshalUploadCheckpoint c1uPrepared) }

set_option maxRecDepth 100000 in
/-- C1: the save/validate round trip fails in copy mode.  c1OnDisk is a
checkpoint the copy coordinator itself dumped and reloaded unchanged: its
magic is copyCpMagic (its own mode's constant), its self-MD5 is exactly
what dump stored, and its fingerprint equals the current source HEAD data
— yet copyCheckpoint.isValid returns false, because multicopy.go line 241
compares the magic against downloadCpMagic instead of copyCpMagic.  The
identical round trip in upload mode validates, showing the check itself is
otherwise satisfied. -/
theorem C1_copy_roundtrip_rejected :
    c1OnDisk.Magic = copyCpMagic ∧
    c1OnDisk.MD5 = demoHash (marshalCopyCheckpoint { c1OnDisk with MD5 := "" }) ∧
    c1OnDisk.ObjStat = ⟨200, "lm", "etag"⟩ ∧
    copyCheckpoint.isValidPure demoHash c1OnDisk 200 "lm" "etag" = false ∧
    c1uOnDisk.Magic = uploadCpMagic ∧
    c1uOnDisk.MD5 = demoHash (marshalUploadCheckpoint { c1uOnDisk with MD5 := "" }) ∧
    uploadCheckpoint.isValidPure demoHash c1uOnDisk "f.bin" 15 7 = true := by
  refine ⟨rfl, by decide, rfl, by decide, rfl, by decide, by decide⟩

/- ===== C6 ===== -/

def c6chunks : List FileChunk := [⟨1, 0, 10⟩, ⟨2, 10, 5⟩]

def c6arrivals : List Arrival := [Arrival.ok ⟨1, "e1"⟩ false, Arrival.ok ⟨2, "e2"⟩ false]

def c6parts : List copyPart := [⟨1, 0, 99⟩, ⟨2, 100, 199⟩]

/-- Whether a trace event is a TransferStartedEvent. -/
def isStartedEv : TraceEv → Bool
  | TraceEv.progress progressEventType.transferStartedEvent _ _ => true
  | _ => false

/-- Whether a trace event is a TransferCompletedEvent. -/
def isCompletedEv : TraceEv → Bool
  | TraceEv.progress progressEventType.transferCompletedEvent _ _ => true
  | _ => false

/-- Whether a trace event is the remote Complete call. -/
def isRemoteCompleteEv : TraceEv → Bool
  | TraceEv.remoteComplete _ => true
  | _ => false

/-- C6: on a fully successful two-part non-checkpointed upload run the
TransferStartedEvent is published twice — once at the beginning and once
again just before Complete (upload.go line 198) — and no
TransferCompletedEvent is ever published; and in the non-checkpointed copy
coordinator the TransferCompletedEvent is published before the remote
Complete call (multicopy.go lines 202-206), not after its success. -/
theorem C6_started_twice_completed_before_complete :
    uploadFileRun "key" "uid" c6chunks true c6arrivals
      = ([TraceEv.remoteInitiate "key",
          TraceEv.progress progressEventType.transferStartedEvent 0 15,
          TraceEv.progress progressEventType.transferDataEvent 10 15,
          TraceEv.progress progressEventType.transferDataEvent 15 15,
          TraceEv.progress progressEventType.transferStartedEvent 15 15,
          TraceEv.remoteComplete "uid"], RunResult.success) ∧
    ((uploadFileRun "key" "uid" c6chunks true c6arrivals).1.countP isStartedEv) = 2 ∧
    ((uploadFileRun "key" "uid" c6chunks true c6arrivals).1.countP isCompletedEv) = 0 ∧
    ((copyFileRun "dstk" "uid" c6parts true c6arrivals).1.findIdx? isCompletedEv = some 4) ∧
    ((copyFileRun "dstk" "uid" c6parts true c6arrivals).1.findIdx? isRemoteCompleteEv = some 5) := by
  refine ⟨by decide, by decide, by decide, by decide, by decide⟩

/- ===== C5 ===== -/

/-- Whether a trace event is the remote Abort call. -/
def isAbortEv : TraceEv → Bool
  | TraceEv.remoteAbort _ => true
  | _ => false

/-- Whether a trace event is a TransferFailedEvent. -/
def isFailedEv : TraceEv → Bool
  | TraceEv.progress progressEventType.transferFailedEvent _ _ => true
  | _ => false

def c5parts : List copyPart := [⟨1, 0, 99⟩, ⟨2, 100, 199⟩]

/-- C5 counterexample: in the non-checkpointed copy coordinator the Abort
is issued before the Failed event is published (multicopy.go lines
189-194), refuting the claimed order (cancel, publish Failed, then Abort):
in this concrete failing run the trace is Initiate, Started, Abort,
Failed — the only Abort is at index 2, before the only Failed at index 3. -/
theorem C5_counterexample :
    copyFileRun "dstk" "uid" c5parts true [Arrival.err]
      = ([TraceEv.remoteInitiate "dstk",
          TraceEv.progress progressEventType.transferStartedEvent 0 200,
          TraceEv.remoteAbort "uid",
          TraceEv.progress progressEventType.transferFailedEvent 0 200],
         RunResult.failure) ∧
    (copyFileRun "dstk" "uid" c5parts true [Arrival.err]).1.findIdx? isAbortEv = some 2 ∧
    (copyFileRun "dstk" "uid" c5parts true [Arrival.err]).1.findIdx? isFailedEv = some 3 := by
  refine ⟨by decide, by decide, by decide⟩

/-- The checkpointed upload coordinator's loop never calls Abort, whatever
arrives and however it ends. -/
theorem uploadCpLoop_no_abort (hash : String → String) (cpFilePath : String) (n : Nat)
    (completeOk : Bool) :
    ∀ (arrivals : List Arrival) (cp : uploadCheckpoint) (completedBytes : Int)
      (completed : Nat) (u : String),
      TraceEv.remoteAbort u ∉
        (uploadCpLoop hash cpFilePath n completeOk arrivals cp completedBytes completed).1 := by
  intro arrivals
  induction arrivals with
  | nil =>
    intro cp cb completed u
    by_cases h : completed < n
    · simp [uploadCpLoop, h]
    · cases completeOk <;> simp [uploadCpLoop, uploadCpTail, h]
  | cons a rest ih =>
    intro cp cb completed u
    cases a with
    | err =>
      by_cases h : completed < n
      · simp [uploadCpLoop, h]
      · cases completeOk <;> simp [uploadCpLoop, uploadCpTail, h]
    | ok part d =>
      by_cases h : completed < n
      · cases hg : (cp.updatePart part).Parts[part.PartNumber - 1]? with
        | none => simp [uploadCpLoop, h, hg]
        | some entry =>
          simp [uploadCpLoop, h, hg]
          exact ih _ _ _ _
      · cases completeOk <;> simp [uploadCpLoop, uploadCpTail, h]

/-- The checkpointed copy coordinator's loop never calls Abort. -/
theorem copyCpLoop_no_abort (hash : String → String) (cpFilePath : String)
    (todo : List copyPart) (completeOk : Bool) :
    ∀ (arrivals : List Arrival) (cp : copyCheckpoint) (completedBytes : Int)
      (completed : Nat) (u : String),
      TraceEv.remoteAbort u ∉
        (copyCpLoop hash cpFilePath todo completeOk arrivals cp completedBytes completed).1 := by
  intro arrivals
  induction arrivals with
  | nil =>
    intro cp cb completed u
    by_cases h : completed < todo.length
    · simp [copyCpLoop, h]
    · cases completeOk <;> simp [copyCpLoop, copyCpTail, h]
  | cons a rest ih =>
    intro cp cb completed u
    cases a with
    | err =>
      by_cases h : completed < todo.length
      · simp [copyCpLoop, h]
      · cases completeOk <;> simp [copyCpLoop, copyCpTail, h]
    | ok part d =>
      by_cases h : completed < todo.length
      · cases hg : copyAggEntry todo part.PartNumber with
        | none => simp [copyCpLoop, h, hg]
        | some tp =>
          simp [copyCpLoop, h, hg]
          exact ih _ _ _ _
      · cases completeOk <;> simp [copyCpLoop, copyCpTail, h]

/-- C5 amended: on the first in-flight part error each coordinator cancels
the pool and: the non-checkpointed upload coordinator publishes Failed and
then calls Remote.Abort before returning the error; the non-checkpointed
copy coordinator calls Remote.Abort and then publishes Failed; the two
checkpointed coordinators publish Failed and return the error without an
Abort — indeed their whole runs never call Abort, leaving the remote
session alive for resume. -/
theorem C5_first_error_abort_policy (hash : String → String)
    (chunks : List FileChunk) (parts : List copyPart) (todo : List copyPart)
    (totalBytes : Int) (uploadId cpFilePath : String) (completeOk : Bool)
    (rest : List Arrival) (completedBytes : Int) (completed : Nat) (n : Nat)
    (ucp : uploadCheckpoint) (ccp : copyCheckpoint)
    (h1 : completed < chunks.length) (h2 : completed < parts.length)
    (h3 : completed < n) (h4 : completed < todo.length) :
    uploadFileLoop chunks totalBytes uploadId completeOk (Arrival.err :: rest)
        completedBytes completed
      = ([TraceEv.progress progressEventType.transferFailedEvent completedBytes totalBytes,
          TraceEv.remoteAbort uploadId], RunResult.failure) ∧
    copyFileLoop parts totalBytes uploadId completeOk (Arrival.err :: rest)
        completedBytes completed
      = ([TraceEv.remoteAbort uploadId,
          TraceEv.progress progressEventType.transferFailedEvent completedBytes totalBytes],
         RunResult.failure) ∧
    uploadCpLoop hash cpFilePath n completeOk (Arrival.err :: rest) ucp
        completedBytes completed
      = ([TraceEv.progress progressEventType.transferFailedEvent completedBytes ucp.FileStat.Size],
         RunResult.failure) ∧
    copyCpLoop hash cpFilePath todo completeOk (Arrival.err :: rest) ccp
        completedBytes completed
      = ([TraceEv.progress progressEventType.transferFailedEvent completedBytes ccp.ObjStat.Size],
         RunResult.failure) ∧
    (∀ (u : String) (arrivals : List Arrival) (loaded : Option uploadCheckpoint)
       (filePath : String) (stSize stModTime : Int) (freshCp : uploadCheckpoint),
      TraceEv.remoteAbort u ∉
        (uploadFileWithCpRun hash loaded filePath stSize stModTime freshCp cpFilePath
          completeOk arrivals).1) ∧
    (∀ (u : String) (arrivals : List Arrival) (loaded : Option copyCheckpoint)
       (metaSize : Int) (metaLastModified metaEtag : String) (freshCp : copyCheckpoint),
      TraceEv.remoteAbort u ∉
        (copyFileWithCpRun hash loaded metaSize metaLastModified metaEtag freshCp cpFilePath
          completeOk arrivals).1) := by
  refine ⟨by simp [uploadFileLoop, h1], by simp [copyFileLoop, h2],
          by simp [uploadCpLoop, h3], by simp [copyCpLoop, h4], ?_, ?_⟩
  · intro u arrivals loaded filePath stSize stModTime freshCp
    have hloop := uploadCpLoop_no_abort hash cpFilePath
      (uploadCpSetup hash loaded filePath stSize stModTime freshCp).1.todoParts.length
      completeOk arrivals (uploadCpSetup hash loaded filePath stSize stModTime freshCp).1
      (uploadCpSetup hash loaded filePath stSize stModTime freshCp).1.getCompletedBytes 0 u
    cases hset : (uploadCpSetup hash loaded filePath stSize stModTime freshCp).2 <;>
      simp [uploadFileWithCpRun, hset] <;> exact hloop
  · intro u arrivals loaded metaSize metaLastModified metaEtag freshCp
    have hloop := copyCpLoop_no_abort hash cpFilePath
      (copyCpSetup hash loaded metaSize metaLastModified metaEtag freshCp).1.todoParts
      completeOk arrivals (copyCpSetup hash loaded metaSize metaLastModified metaEtag freshCp).1
      (copyCpSetup hash loaded metaSize metaLastModified metaEtag freshCp).1.getCompletedBytes 0 u
    cases hset : (copyCpSetup hash loaded metaSize metaLastModified metaEtag freshCp).2 <;>
      simp [copyFileWithCpRun, hset] <;> exact hloop

theorem C5_first_error_abort_policy_witness :
    uploadFileLoop [⟨1, 0, 10⟩] 10 "uid" true [Arrival.err] 0 0
      = ([TraceEv.progress progressEventType.transferFailedEvent 0 10,
          TraceEv.remoteAbort "uid"], RunResult.failure) ∧
    copyFileLoop [⟨1, 0, 9⟩] 10 "uid" true [Arrival.err] 0 0
      = ([TraceEv.remoteAbort "uid",
          TraceEv.progress progressEventType.transferFailedEvent 0 10],
         RunResult.failure) :=
  let h := C5_first_error_abort_policy demoHash [⟨1, 0, 10⟩] [⟨1, 0, 9⟩] [⟨1, 0, 9⟩]
    10 "uid" "p.cp" true [] 0 0 1 uploadCheckpoint.empty copyCheckpoint.empty
    (by decide) (by decide) (by decide) (by decide)
  ⟨h.1, h.2.1⟩

/- ===== C4 ===== -/

/-- Whether a trace event is a TransferDataEvent. -/
def isDataEv : TraceEv → Bool
  | TraceEv.progress progressEventType.transferDataEvent _ _ => true
  | _ => false

/-- Every Data event in the trace is immediately preceded by a write of
the checkpoint file. -/
def dataPrecededByWrite (path : String) (t : List TraceEv) : Prop :=
  ∀ i cb tb,
    t[i]? = some (TraceEv.progress progressEventType.transferDataEvent cb tb) →
    0 < i ∧ ∃ c, t[i - 1]? = some (TraceEv.fsWrite path c)

/-- A trace with no Data event satisfies dataPrecededByWrite vacuously. -/
theorem no_data_preceded (path : String) (t : List TraceEv)
    (h : ∀ e ∈ t, isDataEv e = false) : dataPrecededByWrite path t := by
  intro i cb tb hi
  have hfalse := h _ (List.getElem?_mem hi)
  simp [isDataEv] at hfalse

/-- In every trace of the checkpointed upload coordinator's loop, each
Data event is immediately preceded by the checkpoint-file write, and the
trace never begins with a Data event. -/
theorem uploadCpLoop_data_preceded (hash : String → String) (cpFilePath : String) (n : Nat)
    (completeOk : Bool) :
    ∀ (arrivals : List Arrival) (cp : uploadCheckpoint) (completedBytes : Int) (completed : Nat),
      dataPrecededByWrite cpFilePath
          (uploadCpLoop hash cpFilePath n completeOk arrivals cp completedBytes completed).1 ∧
      (∀ cb tb, (uploadCpLoop hash cpFilePath n completeOk arrivals cp completedBytes completed).1[0]?
          ≠ some (TraceEv.progress progressEventType.transferDataEvent cb tb)) := by
  intro arrivals
  induction arrivals with
  | nil =>
    intro cp cb completed
    by_cases h : completed < n
    · exact ⟨no_data_preceded _ _ (by simp [uploadCpLoop, h]), by simp [uploadCpLoop, h]⟩
    · refine ⟨no_data_preceded _ _ ?_, ?_⟩
      · cases completeOk <;> simp [uploadCpLoop, uploadCpTail, h, isDataEv]
      · cases completeOk <;> simp [uploadCpLoop, uploadCpTail, h]
  | cons a rest ih =>
    intro cp cb completed
    cases a with
    | err =>
      by_cases h : completed < n
      · exact ⟨no_data_preceded _ _ (by simp [uploadCpLoop, h, isDataEv]),
               by simp [uploadCpLoop, h]⟩
      · refine ⟨no_data_preceded _ _ ?_, ?_⟩
        · cases completeOk <;> simp [uploadCpLoop, uploadCpTail, h, isDataEv]
        · cases completeOk <;> simp [uploadCpLoop, uploadCpTail, h]
    | ok part d =>
      by_cases h : completed < n
      · cases hg : (cp.updatePart part).Parts[part.PartNumber - 1]? with
        | none =>
          exact ⟨no_data_preceded _ _ (by simp [uploadCpLoop, h, hg]),
                 by simp [uploadCpLoop, h, hg]⟩
        | some entry =>
          obtain ⟨ih1, ih2⟩ := ih (cp.updatePart part) (cb + entry.Chunk.Size) (completed + 1)
          have htr : (uploadCpLoop hash cpFilePath n completeOk
              (Arrival.ok part d :: rest) cp cb completed).1
            = TraceEv.fsWrite cpFilePath ((cp.updatePart part).dumpBytes hash) ::
              TraceEv.progress progressEventType.transferDataEvent
                (cb + entry.Chunk.Size) cp.FileStat.Size ::
              (uploadCpLoop hash cpFilePath n completeOk rest (cp.updatePart part)
                (cb + entry.Chunk.Size) (completed + 1)).1 := by
            simp [uploadCpLoop, h, hg]
          rw [htr]
          constructor
          · intro i dcb dtb hi
            match i with
            | 0 => simp at hi
            | 1 => exact ⟨Nat.one_pos, (cp.updatePart part).dumpBytes hash, by simp⟩
            | (k + 2) =>
              simp only [List.getElem?_cons_succ] at hi
              obtain ⟨hk, c, hc⟩ := ih1 k dcb dtb hi
              refine ⟨by omega, c, ?_⟩
              have hidx : k + 2 - 1 = (k - 1) + 1 + 1 := by omega
              rw [hidx]
              simpa only [List.getElem?_cons_succ] using hc
          · intro dcb dtb
            simp
      · refine ⟨no_data_preceded _ _ ?_, ?_⟩
        · cases completeOk <;> simp [uploadCpLoop, uploadCpTail, h, isDataEv]
        · cases completeOk <;> simp [uploadCpLoop, uploadCpTail, h]

/-- In every trace of the checkpointed copy coordinator's loop, each Data
event is immediately preceded by the checkpoint-file write, and the trace
never begins with a Data event. -/
theorem copyCpLoop_data_preceded (hash : String → String) (cpFilePath : String)
    (todo : List copyPart) (completeOk : Bool) :
    ∀ (arrivals : List Arrival) (cp : copyCheckpoint) (completedBytes : Int) (completed : Nat),
      dataPrecededByWrite cpFilePath
          (copyCpLoop hash cpFilePath todo completeOk arrivals cp completedBytes completed).1 ∧
      (∀ cb tb, (copyCpLoop hash cpFilePath todo completeOk arrivals cp completedBytes completed).1[0]?
          ≠ some (TraceEv.progress progressEventType.transferDataEvent cb tb)) := by
  intro arrivals
  induction arrivals with
  | nil =>
    intro cp cb completed
    by_cases h : completed < todo.length
    · exact ⟨no_data_preceded _ _ (by simp [copyCpLoop, h]), by simp [copyCpLoop, h]⟩
    · refine ⟨no_data_preceded _ _ ?_, ?_⟩
      · cases completeOk <;> simp [copyCpLoop, copyCpTail, h, isDataEv]
      · cases completeOk <;> simp [copyCpLoop, copyCpTail, h]
  | cons a rest ih =>
    intro cp cb completed
    cases a with
    | err =>
      by_cases h : completed < todo.length
      · exact ⟨no_data_preceded _ _ (by simp [copyCpLoop, h, isDataEv]),
               by simp [copyCpLoop, h]⟩
      · refine ⟨no_data_preceded _ _ ?_, ?_⟩
        · cases completeOk <;> simp [copyCpLoop, copyCpTail, h, isDataEv]
        · cases completeOk <;> simp [copyCpLoop, copyCpTail, h]
    | ok part d =>
      by_cases h : completed < todo.length
      · cases hg : copyAggEntry todo part.PartNumber with
        | none =>
          exact ⟨no_data_preceded _ _ (by simp [copyCpLoop, h, hg, isDataEv]),
                 by simp [copyCpLoop, h, hg]⟩
        | some tp =>
          obtain ⟨ih1, ih2⟩ := ih (cp.update part) (cb + (tp.End - tp.Start + 1)) (completed + 1)
          have htr : (copyCpLoop hash cpFilePath todo completeOk
              (Arrival.ok part d :: rest) cp cb completed).1
            = TraceEv.fsWrite cpFilePath ((cp.update part).dumpBytes hash) ::
              TraceEv.progress progressEventType.transferDataEvent
                (cb + (tp.End - tp.Start + 1)) cp.ObjStat.Size ::
              (copyCpLoop hash cpFilePath todo completeOk rest (cp.update part)
                (cb + (tp.End - tp.Start + 1)) (completed + 1)).1 := by
            simp [copyCpLoop, h, hg]
          rw [htr]
          constructor
          · intro i dcb dtb hi
            match i with
            | 0 => simp at hi
            | 1 => exact ⟨Nat.one_pos, (cp.update part).dumpBytes hash, by simp⟩
            | (k + 2) =>
              simp only [List.getElem?_cons_succ] at hi
              obtain ⟨hk, c, hc⟩ := ih1 k dcb dtb hi
              refine ⟨by omega, c, ?_⟩
              have hidx : k + 2 - 1 = (k - 1) + 1 + 1 := by omega
              rw [hidx]
              simpa only [List.getElem?_cons_succ] using hc
          · intro dcb dtb
            simp
      · refine ⟨no_data_preceded _ _ ?_, ?_⟩
        · cases completeOk <;> simp [copyCpLoop, copyCpTail, h, isDataEv]
        · cases completeOk <;> simp [copyCpLoop, copyCpTail, h]

/-- Reset the dump-failure flag of an arrival. -/
def Arrival.clearDumpErr : Arrival → Arrival
  | Arrival.ok part _ => Arrival.ok part false
  | Arrival.err => Arrival.err

/-- The checkpointed upload coordinator never inspects the dump's error:
the run is identical whether or not any checkpoint save fails. -/
theorem uploadCpLoop_dump_error_ignored (hash : String → String) (cpFilePath : String)
    (n : Nat) (completeOk : Bool) :
    ∀ (arrivals : List Arrival) (cp : uploadCheckpoint) (completedBytes : Int) (completed : Nat),
      uploadCpLoop hash cpFilePath n completeOk (arrivals.map Arrival.clearDumpErr)
          cp completedBytes completed
        = uploadCpLoop hash cpFilePath n completeOk arrivals cp completedBytes completed := by
  intro arrivals
  induction arrivals with
  | nil => intro cp cb completed; rfl
  | cons a rest ih =>
    intro cp cb completed
    cases a with
    | err => simp [Arrival.clearDumpErr, uploadCpLoop]
    | ok part d =>
      by_cases h : completed < n
      · cases hg : (cp.updatePart part).Parts[part.PartNumber - 1]? with
        | none => simp [Arrival.clearDumpErr, uploadCpLoop, h, hg]
        | some entry => simp [Arrival.clearDumpErr, uploadCpLoop, h, hg, ih]
      · simp [Arrival.clearDumpErr, uploadCpLoop, h]

/-- The checkpointed copy coordinator never inspects the dump's error. -/
theorem copyCpLoop_dump_error_ignored (hash : String → String) (cpFilePath : String)
    (todo : List copyPart) (completeOk : Bool) :
    ∀ (arrivals : List Arrival) (cp : copyCheckpoint) (completedBytes : Int) (completed : Nat),
      copyCpLoop hash cpFilePath todo completeOk (arrivals.map Arrival.clearDumpErr)
          cp completedBytes completed
        = copyCpLoop hash cpFilePath todo completeOk arrivals cp completedBytes completed := by
  intro arrivals
  induction arrivals with
  | nil => intro cp cb completed; rfl
  | cons a rest ih =>
    intro cp cb completed
    cases a with
    | err => simp [Arrival.clearDumpErr, copyCpLoop]
    | ok part d =>
      by_cases h : completed < todo.length
      · cases hg : copyAggEntry todo part.PartNumber with
        | none => simp [Arrival.clearDumpErr, copyCpLoop, h, hg]
        | some tp => simp [Arrival.clearDumpErr, copyCpLoop, h, hg, ih]
      · simp [Arrival.clearDumpErr, copyCpLoop, h]

def c4cp : uploadCheckpoint :=
  ⟨uploadCpMagic, "", "f4", ⟨12, 3, ""⟩, "k4", "uid4",
   [⟨⟨1, 0, 12⟩, ⟨0, ""⟩, false⟩]⟩

set_option maxRecDepth 1000000 in
/-- C4 counterexample: a one-part checkpointed upload run in which the
checkpoint save fails on the only part (dumpErr = true): the run does not
stop — it publishes the Data event, proceeds to Complete and ends in
success, identical to the run whose save succeeded, refuting "a failure of
that checkpoint save is treated as a terminal error of the run". -/
theorem C4_counterexample :
    (uploadCpLoop demoHash "f4.cp" 1 true [Arrival.ok ⟨1, "e1"⟩ true] c4cp 0 0).2
      = RunResult.success ∧
    (uploadCpLoop demoHash "f4.cp" 1 true [Arrival.ok ⟨1, "e1"⟩ true] c4cp 0 0).2
      ≠ RunResult.failure ∧
    ((uploadCpLoop demoHash "f4.cp" 1 true [Arrival.ok ⟨1, "e1"⟩ true] c4cp 0 0).1.countP
      isDataEv) = 1 ∧
    TraceEv.remoteComplete "uid4"
      ∈ (uploadCpLoop demoHash "f4.cp" 1 true [Arrival.ok ⟨1, "e1"⟩ true] c4cp 0 0).1 ∧
    uploadCpLoop demoHash "f4.cp" 1 true [Arrival.ok ⟨1, "e1"⟩ true] c4cp 0 0
      = uploadCpLoop demoHash "f4.cp" 1 true [Arrival.ok ⟨1, "e1"⟩ false] c4cp 0 0 := by
  refine ⟨by decide, by decide, by decide, by decide, by decide⟩

/-- C4 amended: during RUNNING each checkpointed coordinator attempts the
checkpoint dump — whose record contains the completing part's token, now
marked completed — before publishing the Data event (every Data event in
every trace is immediately preceded by the checkpoint-file write); but a
failure of that save is not treated as terminal: the dump's error is
discarded, and the run's trace and outcome are identical whether or not
any save fails. -/
theorem C4_dump_before_data_failure_ignored (hash : String → String)
    (cpFilePath : String) (n : Nat) (completeOk : Bool)
    (cp : uploadCheckpoint) (part : UploadPart) (dumpErr : Bool)
    (rest : List Arrival) (completedBytes : Int) (completed : Nat) (entry : cpPart)
    (ccp : copyCheckpoint) (todo : List copyPart) (cpart : UploadPart)
    (cDumpErr : Bool) (cRest : List Arrival) (tp : copyPart)
    (h1 : completed < n)
    (hg : (cp.updatePart part).Parts[part.PartNumber - 1]? = some entry)
    (h2 : completed < todo.length)
    (hgc : copyAggEntry todo cpart.PartNumber = some tp)
    (hcl : cpart.PartNumber - 1 < ccp.PartStat.length) :
    uploadCpLoop hash cpFilePath n completeOk (Arrival.ok part dumpErr :: rest)
        cp completedBytes completed
      = (TraceEv.fsWrite cpFilePath ((cp.updatePart part).dumpBytes hash) ::
         TraceEv.progress progressEventType.transferDataEvent
           (completedBytes + entry.Chunk.Size) cp.FileStat.Size ::
         (uploadCpLoop hash cpFilePath n completeOk rest (cp.updatePart part)
           (completedBytes + entry.Chunk.Size) (completed + 1)).1,
         (uploadCpLoop hash cpFilePath n completeOk rest (cp.updatePart part)
           (completedBytes + entry.Chunk.Size) (completed + 1)).2) ∧
    entry.Part = part ∧ entry.IsCompleted = true ∧
    copyCpLoop hash cpFilePath todo completeOk (Arrival.ok cpart cDumpErr :: cRest)
        ccp completedBytes completed
      = (TraceEv.fsWrite cpFilePath ((ccp.update cpart).dumpBytes hash) ::
         TraceEv.progress progressEventType.transferDataEvent
           (completedBytes + (tp.End - tp.Start + 1)) ccp.ObjStat.Size ::
         (copyCpLoop hash cpFilePath todo completeOk cRest (ccp.update cpart)
           (completedBytes + (tp.End - tp.Start + 1)) (completed + 1)).1,
         (copyCpLoop hash cpFilePath todo completeOk cRest (ccp.update cpart)
           (completedBytes + (tp.End - tp.Start + 1)) (completed + 1)).2) ∧
    (ccp.update cpart).PartStat[cpart.PartNumber - 1]? = some true ∧
    (∀ arrivals cp0 cb0 k0, dataPrecededByWrite cpFilePath
        (uploadCpLoop hash cpFilePath n completeOk arrivals cp0 cb0 k0).1) ∧
    (∀ arrivals ccp0 cb0 k0, dataPrecededByWrite cpFilePath
        (copyCpLoop hash cpFilePath todo completeOk arrivals ccp0 cb0 k0).1) ∧
    (∀ arrivals cp0 cb0 k0,
      uploadCpLoop hash cpFilePath n completeOk (arrivals.map Arrival.clearDumpErr) cp0 cb0 k0
        = uploadCpLoop hash cpFilePath n completeOk arrivals cp0 cb0 k0) ∧
    (∀ arrivals ccp0 cb0 k0,
      copyCpLoop hash cpFilePath todo completeOk (arrivals.map Arrival.clearDumpErr) ccp0 cb0 k0
        = copyCpLoop hash cpFilePath todo completeOk arrivals ccp0 cb0 k0) := by
  have hg2 := hg
  simp only [uploadCheckpoint.updatePart] at hg2
  have hlen : part.PartNumber - 1 < cp.Parts.length := by
    have hl := (List.getElem?_eq_some_iff.mp hg2).1
    simpa using hl
  rw [List.getElem?_set_self hlen] at hg2
  have hg3 := Option.some.inj hg2
  have hps : (ccp.update cpart).PartStat[cpart.PartNumber - 1]? = some true := by
    simp only [copyCheckpoint.update]
    exact List.getElem?_set_self hcl
  refine ⟨by simp [uploadCpLoop, h1, hg], by rw [← hg3], by rw [← hg3],
          by simp [copyCpLoop, h2, hgc], hps,
          fun arrivals cp0 cb0 k0 =>
            (uploadCpLoop_data_preceded hash cpFilePath n completeOk arrivals cp0 cb0 k0).1,
          fun arrivals ccp0 cb0 k0 =>
            (copyCpLoop_data_preceded hash cpFilePath todo completeOk arrivals ccp0 cb0 k0).1,
          uploadCpLoop_dump_error_ignored hash cpFilePath n completeOk,
          copyCpLoop_dump_error_ignored hash cpFilePath todo completeOk⟩

def c4ccp : copyCheckpoint :=
  ⟨copyCpMagic, "", "sb", "sk", "db", "dk", "cid4", ⟨10, "lm", "et"⟩,
   [⟨1, 0, 9⟩], [⟨0, ""⟩], [false]⟩

set_option maxRecDepth 1000000 in
theorem C4_dump_before_data_failure_ignored_witness :
    uploadCpLoop demoHash "f4.cp" 1 true [Arrival.ok ⟨1, "e1"⟩ true] c4cp 0 0
      = (TraceEv.fsWrite "f4.cp" ((c4cp.updatePart ⟨1, "e1"⟩).dumpBytes demoHash) ::
         TraceEv.progress progressEventType.transferDataEvent
           (0 + (⟨⟨1, 0, 12⟩, ⟨1, "e1"⟩, true⟩ : cpPart).Chunk.Size) c4cp.FileStat.Size ::
         (uploadCpLoop demoHash "f4.cp" 1 true [] (c4cp.updatePart ⟨1, "e1"⟩)
           (0 + (⟨⟨1, 0, 12⟩, ⟨1, "e1"⟩, true⟩ : cpPart).Chunk.Size) (0 + 1)).1,
         (uploadCpLoop demoHash "f4.cp" 1 true [] (c4cp.updatePart ⟨1, "e1"⟩)
           (0 + (⟨⟨1, 0, 12⟩, ⟨1, "e1"⟩, true⟩ : cpPart).Chunk.Size) (0 + 1)).2) :=
  (C4_dump_before_data_failure_ignored demoHash "f4.cp" 1 true c4cp ⟨1, "e1"⟩ true [] 0 0
    ⟨⟨1, 0, 12⟩, ⟨1, "e1"⟩, true⟩ c4ccp [⟨1, 0, 9⟩] ⟨1, "ec"⟩ true [] ⟨1, 0, 9⟩
    (by decide) (by decide) (by decide) (by decide) (by decide)).1

/- ===== C7 ===== -/

/-- The Go-style accumulator loop of todoParts equals the declarative
filter-then-project form. -/
theorem uploadTodo_foldl (l : List cpPart) (acc : List FileChunk) :
    l.foldl (fun fcs part => if !part.IsCompleted then fcs ++ [part.Chunk] else fcs) acc
      = acc ++ (l.filter fun p => !p.IsCompleted).map cpPart.Chunk := by
  induction l generalizing acc with
  | nil => simp
  | cons p rest ih =>
    rw [List.foldl_cons, List.filter_cons]
    by_cases h : p.IsCompleted
    · rw [if_neg (by simp [h]), if_neg (by simp [h]), ih]
    · rw [if_pos (by simp [h]), if_pos (by simp [h]), ih, List.map_cons]
      simp

/-- The Go-style accumulator loop of getCompletedBytes equals the sum of
the completed parts' sizes. -/
theorem uploadCompleted_foldl (l : List cpPart) (acc : Int) :
    l.foldl (fun a part => if part.IsCompleted then a + part.Chunk.Size else a) acc
      = acc + ((l.filter fun p => p.IsCompleted).map fun p => p.Chunk.Size).sum := by
  induction l generalizing acc with
  | nil => simp
  | cons p rest ih =>
    rw [List.foldl_cons, List.filter_cons]
    by_cases h : p.IsCompleted
    · rw [if_pos h, if_pos h, ih, List.map_cons, List.sum_cons]
      ring
    · rw [if_neg h, if_neg h, ih]

/-- updatePart changes only the Parts array. -/
theorem updatePart_UploadID (cp : uploadCheckpoint) (part : UploadPart) :
    (cp.updatePart part).UploadID = cp.UploadID := rfl

/-- The checkpointed upload coordinator's loop never calls Initiate. -/
theorem uploadCpLoop_no_initiate (hash : String → String) (cpFilePath : String) (n : Nat)
    (completeOk : Bool) :
    ∀ (arrivals : List Arrival) (cp : uploadCheckpoint) (completedBytes : Int)
      (completed : Nat) (key : String),
      TraceEv.remoteInitiate key ∉
        (uploadCpLoop hash cpFilePath n completeOk arrivals cp completedBytes completed).1 := by
  intro arrivals
  induction arrivals with
  | nil =>
    intro cp cb completed key
    by_cases h : completed < n
    · simp [uploadCpLoop, h]
    · cases completeOk <;> simp [uploadCpLoop, uploadCpTail, h]
  | cons a rest ih =>
    intro cp cb completed key
    cases a with
    | err =>
      by_cases h : completed < n
      · simp [uploadCpLoop, h]
      · cases completeOk <;> simp [uploadCpLoop, uploadCpTail, h]
    | ok part d =>
      by_cases h : completed < n
      · cases hg : (cp.updatePart part).Parts[part.PartNumber - 1]? with
        | none => simp [uploadCpLoop, h, hg]
        | some entry =>
          simp [uploadCpLoop, h, hg]
          exact ih _ _ _ _
      · cases completeOk <;> simp [uploadCpLoop, uploadCpTail, h]

/-- Every remote Complete call the checkpointed upload loop makes carries
the checkpoint's UploadID (updatePart never changes it). -/
theorem uploadCpLoop_complete_id (hash : String → String) (cpFilePath : String) (n : Nat)
    (completeOk : Bool) :
    ∀ (arrivals : List Arrival) (cp : uploadCheckpoint) (completedBytes : Int)
      (completed : Nat) (u : String),
      TraceEv.remoteComplete u ∈
        (uploadCpLoop hash cpFilePath n completeOk arrivals cp completedBytes completed).1 →
      u = cp.UploadID := by
  intro arrivals
  induction arrivals with
  | nil =>
    intro cp cb completed u
    by_cases h : completed < n
    · simp [uploadCpLoop, h]
    · cases completeOk <;> simp [uploadCpLoop, uploadCpTail, h]
  | cons a rest ih =>
    intro cp cb completed u
    cases a with
    | err =>
      by_cases h : completed < n
      · simp [uploadCpLoop, h]
      · cases completeOk <;> simp [uploadCpLoop, uploadCpTail, h]
    | ok part d =>
      by_cases h : completed < n
      · cases hg : (cp.updatePart part).Parts[part.PartNumber - 1]? with
        | none => simp [uploadCpLoop, h, hg]
        | some entry =>
          intro hmem
          have htr : (uploadCpLoop hash cpFilePath n completeOk
              (Arrival.ok part d :: rest) cp cb completed).1
            = TraceEv.fsWrite cpFilePath ((cp.updatePart part).dumpBytes hash) ::
              TraceEv.progress progressEventType.transferDataEvent
                (cb + entry.Chunk.Size) cp.FileStat.Size ::
              (uploadCpLoop hash cpFilePath n completeOk rest (cp.updatePart part)
                (cb + entry.Chunk.Size) (completed + 1)).1 := by
            simp [uploadCpLoop, h, hg]
          rw [htr] at hmem
          rcases List.mem_cons.mp hmem with hx | hx
          · exact absurd hx (by simp)
          rcases List.mem_cons.mp hx with hy | hy
          · exact absurd hy (by simp)
          · exact (ih (cp.updatePart part) (cb + entry.Chunk.Size) (completed + 1) u hy).trans
              (updatePart_UploadID cp part)
      · cases completeOk <;> simp [uploadCpLoop, uploadCpTail, h]

/-- C7: when a resumable upload run loads a checkpoint that validates, the
coordinator keeps that checkpoint (prepare does not run): the scheduled
chunks are exactly the chunks of the parts whose completed flag is false,
in checkpoint order; the initial completed-byte count is the sum of the
sizes of the parts whose flag is true; the run's trace contains no
Initiate call; and every Complete call carries the stored UploadID. -/
theorem C7_resume_uses_checkpoint (hash : String → String) (cp : uploadCheckpoint)
    (filePath : String) (stSize stModTime : Int) (freshCp : uploadCheckpoint)
    (cpFilePath : String) (completeOk : Bool) (arrivals : List Arrival)
    (hvalid : cp.isValidPure hash filePath stSize stModTime = true) :
    uploadCpSetup hash (some cp) filePath stSize stModTime freshCp = (cp, false) ∧
    cp.todoParts = (cp.Parts.filter fun p => !p.IsCompleted).map cpPart.Chunk ∧
    cp.getCompletedBytes
      = ((cp.Parts.filter fun p => p.IsCompleted).map fun p => p.Chunk.Size).sum ∧
    uploadFileWithCpRun hash (some cp) filePath stSize stModTime freshCp cpFilePath
        completeOk arrivals
      = (TraceEv.progress progressEventType.transferStartedEvent cp.getCompletedBytes
           cp.FileStat.Size ::
         (uploadCpLoop hash cpFilePath cp.todoParts.length completeOk arrivals cp
           cp.getCompletedBytes 0).1,
         (uploadCpLoop hash cpFilePath cp.todoParts.length completeOk arrivals cp
           cp.getCompletedBytes 0).2) ∧
    (∀ key, TraceEv.remoteInitiate key ∉
      (uploadFileWithCpRun hash (some cp) filePath stSize stModTime freshCp cpFilePath
        completeOk arrivals).1) ∧
    (∀ u, TraceEv.remoteComplete u ∈
      (uploadFileWithCpRun hash (some cp) filePath stSize stModTime freshCp cpFilePath
        completeOk arrivals).1 →
      u = cp.UploadID) := by
  have hsetup : uploadCpSetup hash (some cp) filePath stSize stModTime freshCp = (cp, false) := by
    simp [uploadCpSetup, hvalid]
  have hrun : uploadFileWithCpRun hash (some cp) filePath stSize stModTime freshCp cpFilePath
      completeOk arrivals
    = (TraceEv.progress progressEventType.transferStartedEvent cp.getCompletedBytes
         cp.FileStat.Size ::
       (uploadCpLoop hash cpFilePath cp.todoParts.length completeOk arrivals cp
         cp.getCompletedBytes 0).1,
       (uploadCpLoop hash cpFilePath cp.todoParts.length completeOk arrivals cp
         cp.getCompletedBytes 0).2) := by
    simp [uploadFileWithCpRun, hsetup]
  refine ⟨hsetup, uploadTodo_foldl cp.Parts [], by simpa using uploadCompleted_foldl cp.Parts 0,
          hrun, ?_, ?_⟩
  · intro key
    rw [hrun]
    intro hmem
    rcases List.mem_cons.mp hmem with hmem | hmem
    · exact absurd hmem (by simp)
    · exact uploadCpLoop_no_initiate hash cpFilePath _ completeOk arrivals _ _ _ key hmem
  · intro u
    rw [hrun]
    intro hmem
    rcases List.mem_cons.mp hmem with hmem | hmem
    · exact absurd hmem (by simp)
    · exact uploadCpLoop_complete_id hash cpFilePath _ completeOk arrivals _ _ _ u hmem

def c7base : uploadCheckpoint :=
  ⟨uploadCpMagic, "", "f7", ⟨20, 9, ""⟩, "k7", "uid7",
   [⟨⟨1, 0, 10⟩, ⟨1, "e1"⟩, true⟩, ⟨⟨2, 10, 10⟩, ⟨0, ""⟩, false⟩]⟩

/-- A concrete on-disk upload checkpoint that validates: its MD5 field is
exactly the hash of the record with MD5 blanked, its magic is the upload
magic, and its fingerprint matches the stat values used below. -/
def c7cp : uploadCheckpoint := { c7base with MD5 := demoHash (marshalUploadCheckpoint c7base) }

set_option maxRecDepth 1000000 in
theorem C7_resume_uses_checkpoint_witness :
    uploadCpSetup demoHash (some c7cp) "f7" 20 9 uploadCheckpoint.empty = (c7cp, false) ∧
    c7cp.todoParts = [⟨2, 10, 10⟩] :=
  ⟨(C7_resume_uses_checkpoint demoHash c7cp "f7" 20 9 uploadCheckpoint.empty "f7.cp" true []
      (by decide)).1,
   by decide⟩

/- ===== C2 ===== -/

/-- The parts list is densely numbered b+1, b+2, ... (as getCopyParts,
multicopy.go lines 119-127, builds it). -/
def numberedFromB : Nat → List copyPart → Bool
  | _, [] => true
  | b, p :: rest => p.Number == b + 1 && numberedFromB (b + 1) rest

/-- The m-th entry of the todo list sits at position ≥ m of the full part
list, so its number is at least b + m + 1. -/
theorem copyTodoAux_number_ge (status : List Bool) :
    ∀ (parts : List copyPart) (b m : Nat) (p : copyPart),
      numberedFromB b parts = true →
      (copyTodoAux status parts)[m]? = some p → b + m + 1 ≤ p.Number := by
  induction status with
  | nil =>
    intro parts b m p _ hget
    simp [copyTodoAux] at hget
  | cons s st ih =>
    intro parts b m p hnum hget
    match parts with
    | [] => simp [copyTodoAux] at hget
    | q :: rest =>
      simp only [numberedFromB, Bool.and_eq_true, beq_iff_eq] at hnum
      obtain ⟨hq, hrest⟩ := hnum
      by_cases hs : s
      · rw [show copyTodoAux (s :: st) (q :: rest) = copyTodoAux st rest from by
          simp [copyTodoAux, hs]] at hget
        have := ih rest (b + 1) m p hrest hget
        omega
      · rw [show copyTodoAux (s :: st) (q :: rest) = q :: copyTodoAux st rest from by
          simp [copyTodoAux, hs]] at hget
        rcases m with _ | m'
        · obtain rfl : q = p := by simpa using hget
          omega
        · simp only [List.getElem?_cons_succ] at hget
          have := ih rest (b + 1) m' p hrest hget
          omega

/-- When some part before position m is completed, the m-th todo entry
sits strictly beyond position m: its number exceeds b + m + 1. -/
theorem copyTodoAux_number_gt (status : List Bool) :
    ∀ (parts : List copyPart) (b m : Nat) (p : copyPart),
      numberedFromB b parts = true →
      (∃ j, j < m ∧ status[j]? = some true) →
      (copyTodoAux status parts)[m]? = some p → b + m + 1 < p.Number := by
  induction status with
  | nil =>
    intro parts b m p _ _ hget
    simp [copyTodoAux] at hget
  | cons s st ih =>
    intro parts b m p hnum hex hget
    match parts with
    | [] => simp [copyTodoAux] at hget
    | q :: rest =>
      simp only [numberedFromB, Bool.and_eq_true, beq_iff_eq] at hnum
      obtain ⟨hq, hrest⟩ := hnum
      by_cases hs : s
      · rw [show copyTodoAux (s :: st) (q :: rest) = copyTodoAux st rest from by
          simp [copyTodoAux, hs]] at hget
        have := copyTodoAux_number_ge st rest (b + 1) m p hrest hget
        omega
      · rw [show copyTodoAux (s :: st) (q :: rest) = q :: copyTodoAux st rest from by
          simp [copyTodoAux, hs]] at hget
        obtain ⟨j, hj, hjt⟩ := hex
        rcases j with _ | j'
        · have : s = true := by simpa using hjt
          exact absurd this hs
        · rcases m with _ | m'
          · omega
          · simp only [List.getElem?_cons_succ] at hget hjt
            have := ih rest (b + 1) m' p hrest ⟨j', by omega, hjt⟩ hget
            omega

/-- When no part before position m is completed and part m itself is not
completed, the m-th todo entry is exactly the m-th part. -/
theorem copyTodoAux_eq_self (status : List Bool) :
    ∀ (parts : List copyPart) (m : Nat),
      (∀ j, j < m → status[j]? = some false) →
      status[m]? = some false →
      (copyTodoAux status parts)[m]? = parts[m]? := by
  induction status with
  | nil =>
    intro parts m _ hm
    simp at hm
  | cons s st ih =>
    intro parts m hall hm
    match parts with
    | [] => simp [copyTodoAux]
    | q :: rest =>
      rcases m with _ | m'
      · have hs : s = false := by simpa using hm
        rw [show copyTodoAux (s :: st) (q :: rest) = q :: copyTodoAux st rest from by
          simp [copyTodoAux, hs]]
        simp
      · have hs : s = false := by simpa using hall 0 (Nat.succ_pos m')
        rw [show copyTodoAux (s :: st) (q :: rest) = q :: copyTodoAux st rest from by
          simp [copyTodoAux, hs]]
        simp only [List.getElem?_cons_succ]
        refine ih rest m' ?_ (by simpa using hm)
        intro j hj
        simpa using hall (j + 1) (by omega)

def c2parts : List copyPart := [⟨1, 0, 9⟩, ⟨2, 10, 19⟩, ⟨3, 20, 29⟩, ⟨4, 30, 39⟩]

def c2status : List Bool := [false, false, true, false]

/-- C2 counterexample: on a resumed copy run with part 3 already completed
(todo = parts 1, 2, 4), completing part 1 accesses index 0, which is in
range, and the todo list is not a prefix of the full part list — yet the
entry accessed is part 1 itself: the size added is the completing part's
own size, refuting "whenever the index is in range but the todo list is
not a prefix of the full part list, the size of a different part is
added". -/
theorem C2_counterexample :
    copyTodoAux c2status c2parts = [⟨1, 0, 9⟩, ⟨2, 10, 19⟩, ⟨4, 30, 39⟩] ∧
    1 - 1 < (copyTodoAux c2status c2parts).length ∧
    c2parts.take (copyTodoAux c2status c2parts).length ≠ copyTodoAux c2status c2parts ∧
    copyAggEntry (copyTodoAux c2status c2parts) 1 = some ⟨1, 0, 9⟩ ∧
    (⟨1, 0, 9⟩ : copyPart).Number = 1 ∧
    c2parts[0]? = some ⟨1, 0, 9⟩ := by
  refine ⟨by decide, by decide, by decide, by decide, rfl, by decide⟩

/-- C2 amended: the copy coordinator's completed-bytes update indexes the
todo slice by PartNumber-1 (multicopy.go line 442).  For a densely
numbered part list: a completing part whose number exceeds the todo-list
length makes the access out of bounds (a Go panic); when the index is in
range and some part numbered below the completing part is already
completed, the entry accessed has a number strictly greater than the
completing part's, so a different part's size is added; only when no
lower-numbered part is completed is the accessed entry the completing part
itself.  The upload coordinator instead indexes the full Parts array at
slot PartNumber-1, in range for every valid part number. -/
theorem C2_todo_indexing_hazard (parts : List copyPart) (status : List Bool) (k : Nat)
    (ucp : uploadCheckpoint)
    (hnum : numberedFromB 0 parts = true)
    (hk1 : 1 ≤ k)
    (hkin : status[k - 1]? = some false) :
    (k > (copyTodoAux status parts).length →
      copyAggEntry (copyTodoAux status parts) k = none) ∧
    (∀ p, copyAggEntry (copyTodoAux status parts) k = some p →
      ((∃ j, j < k - 1 ∧ status[j]? = some true) → k < p.Number ∧ p.Number ≠ k) ∧
      ((∀ j, j < k - 1 → status[j]? = some false) → some p = parts[k - 1]?)) ∧
    uploadCpAggEntry ucp k = ucp.Parts.get? (k - 1) ∧
    (k ≤ ucp.Parts.length → (uploadCpAggEntry ucp k).isSome = true) := by
  refine ⟨?_, ?_, rfl, ?_⟩
  · intro hgt
    have hlen : (copyTodoAux status parts).length ≤ k - 1 := by omega
    simp [copyAggEntry, List.get?_eq_getElem?, List.getElem?_eq_none hlen]
  · intro p hp
    have hp2 : (copyTodoAux status parts)[k - 1]? = some p := by
      simpa [copyAggEntry, List.get?_eq_getElem?] using hp
    constructor
    · intro hex
      have := copyTodoAux_number_gt status parts 0 (k - 1) p hnum hex hp2
      omega
    · intro hall
      rw [← copyTodoAux_eq_self status parts (k - 1) hall hkin]
      exact hp2.symm
  · intro hle
    have hlt : k - 1 < ucp.Parts.length := by omega
    simp [uploadCpAggEntry, List.get?_eq_getElem?, List.getElem?_eq_getElem hlt]

theorem C2_todo_indexing_hazard_witness :
    copyAggEntry (copyTodoAux c2status c2parts) 4 = none :=
  (C2_todo_indexing_hazard c2parts c2status 4 uploadCheckpoint.empty
    (by decide) (by decide) (by decide)).1 (by decide)
